import Mathlib

/-!
# Task manager service (`main.go`)

A shallow embedding of the four HTTP handlers of `main.go`
(`getTasksHandler`, `addTaskHandler`, `deleteTaskHandler`, `completeTaskHandler`)
together with the parts of the Go standard library, of `gorilla/mux` and of the
MongoDB driver that the handlers call.

* A Go `string` is a Lean `String`; `len` and `encoding/hex` see its UTF-8 bytes.
* The collection `taskdb.tasks` is a list of `Task` documents in natural order whose
  `_id`s are pairwise distinct (MongoDB keeps a unique index on `_id`).
* Everything the handlers cannot control (the identifier drawn by
  `primitive.NewObjectID`, whether a driver call reports an error) is read from an
  environment `Env`, one per request.
* A handler maps the environment, the collection and the request to the response it
  writes, the collection afterwards and the driver calls it issued.
* A driver call that reports an error leaves the collection as it was.
* A cursor may fail while it is read: `cursor.Next` then returns `false`, as it does at
  the end of the result.
* Calls without effect on the response or the collection (`log.Println`,
  `defer cursor.Close`) are left out.
-/

namespace TaskManager

/-! ## Go strings, errors, `encoding/hex` -/

/-- UTF-8 encoding of one character, the bytes a Go string stores for it. -/
def utf8Encode (c : Char) : List Nat :=
  let v := c.toNat
  if v ≤ 0x7f then [v]
  else if v ≤ 0x7ff then [0xc0 + v / 0x40, 0x80 + v % 0x40]
  else if v ≤ 0xffff then [0xe0 + v / 0x1000, 0x80 + v / 0x40 % 0x40, 0x80 + v % 0x40]
  else [0xf0 + v / 0x40000, 0x80 + v / 0x1000 % 0x40, 0x80 + v / 0x40 % 0x40, 0x80 + v % 0x40]

/-- Conversion `[]byte(s)`: the bytes of a Go string. -/
def goBytes (s : String) : List Nat := s.data.flatMap utf8Encode

/-- A Go `error` value, identified with the text its `Error()` method returns. -/
structure GoError where
  Error : String
deriving DecidableEq, Repr

/-- Uppercase hexadecimal digit, as `fmt` prints it. -/
def upperHexDigit (n : Nat) : Char := "0123456789ABCDEF".data.getD n '0'

/-- Verb `%#U` of `fmt` applied to a byte value: `U+00XX`, followed by the quoted
character when `strconv.IsPrint` holds for it. -/
def fmtSharpU (b : Nat) : String :=
  let code := String.mk ['U', '+', '0', '0', upperHexDigit (b / 16 % 16), upperHexDigit (b % 16)]
  if (0x20 ≤ b ∧ b ≤ 0x7e) ∨ (0xa1 ≤ b ∧ b ≤ 0xff ∧ b ≠ 0xad) then
    code ++ " '" ++ String.mk [Char.ofNat b] ++ "'"
  else code

/-- Error `hex.InvalidByteError(b)`. -/
def InvalidByteError (b : Nat) : GoError := ⟨"encoding/hex: invalid byte: " ++ fmtSharpU b⟩

/-- Error `hex.ErrLength`. -/
def ErrLength : GoError := ⟨"encoding/hex: odd length hex string"⟩

/-- Error `primitive.ErrInvalidHex`. -/
def ErrInvalidHex : GoError := ⟨"the provided hex string is not a valid ObjectID"⟩

/-- Value of one hexadecimal digit byte (`0-9`, `a-f`, `A-F`), as the reverse table of
`encoding/hex` gives it; `none` for every other byte. -/
def fromHexChar (c : Nat) : Option Nat :=
  if 48 ≤ c ∧ c ≤ 57 then some (c - 48)
  else if 97 ≤ c ∧ c ≤ 102 then some (c - 97 + 10)
  else if 65 ≤ c ∧ c ≤ 70 then some (c - 65 + 10)
  else none

/-- Function `hex.Decode`: decodes the bytes pair by pair and stops at the first byte
that is no hexadecimal digit; an odd trailing byte gives `ErrLength` (or
`InvalidByteError` when it is no digit). -/
def hexDecode : List Nat → Except GoError (List Nat)
  | [] => .ok []
  | [p] =>
    match fromHexChar p with
    | none => .error (InvalidByteError p)
    | some _ => .error ErrLength
  | p :: q :: rest =>
    match fromHexChar p with
    | none => .error (InvalidByteError p)
    | some a =>
      match fromHexChar q with
      | none => .error (InvalidByteError q)
      | some b =>
        match hexDecode rest with
        | .error err => .error err
        | .ok out => .ok ((a * 16 + b) :: out)

/-- Lowercase hexadecimal digit, the table `0123456789abcdef` of `encoding/hex`. -/
def hexDigit (n : Nat) : Char := "0123456789abcdef".data.getD n '0'

/-- Function `hex.EncodeToString` on a list of bytes. -/
def hexEncode (bs : List Nat) : String :=
  String.mk (bs.flatMap fun b => [hexDigit (b / 16), hexDigit (b % 16)])

/-! ## Data model -/

/-- Type `primitive.ObjectID`, a `[12]byte`. -/
abbrev ObjectID := { bs : List Nat // bs.length = 12 ∧ ∀ b ∈ bs, b < 256 }

/-- Method `ObjectID.Hex`. -/
def ObjectID.Hex (id : ObjectID) : String := hexEncode id.val

/-- Function `primitive.ObjectIDFromHex`: the string must be 24 bytes long and decode
as hexadecimal. The 12 decoded bytes are the identifier. -/
def ObjectIDFromHex (s : String) : Except GoError ObjectID :=
  if (goBytes s).length ≠ 24 then .error ErrInvalidHex
  else
    match hexDecode (goBytes s) with
    | .error err => .error err
    | .ok bs => if h : bs.length = 12 ∧ ∀ b ∈ bs, b < 256 then .ok ⟨bs, h⟩ else .error ErrInvalidHex

/-- Struct `Task`. -/
structure Task where
  ID : ObjectID
  Description : String
  Completed : Bool
deriving DecidableEq, Repr

/-- Go slice `[]Task`; `none` is the nil slice that `var tasks []Task` declares. -/
abbrev TaskSlice := Option (List Task)

/-- Builtin `append(tasks, task)`: appending to the nil slice allocates a slice. -/
def TaskSlice.append (tasks : TaskSlice) (task : Task) : TaskSlice :=
  match tasks with
  | none => some [task]
  | some l => some (l ++ [task])

/-- JSON object that `encoding/json` writes for a `Task`, following its field tags;
the identifier is written by `ObjectID.MarshalJSON` as its hex string. -/
structure TaskJson where
  id : String
  description : String
  completed : Bool
deriving DecidableEq, Repr

/-- JSON documents that `json.Marshal` produces for a `[]Task`. -/
inductive JsonValue where
  | null
  | array (items : List TaskJson)
deriving DecidableEq, Repr

/-- Encoding of one `Task` by `json.Marshal`. -/
def Task.toJson (t : Task) : TaskJson :=
  { id := t.ID.Hex, description := t.Description, completed := t.Completed }

/-- Function `json.Marshal` on a `[]Task`: a nil slice encodes as `null`, any other
slice as the array of its elements. No `Task` makes the encoder report an error. -/
def jsonMarshal (tasks : TaskSlice) : Except GoError JsonValue :=
  match tasks with
  | none => .ok .null
  | some l => .ok (.array (l.map Task.toJson))

/-! ## HTTP request and response -/

/-- The parts of `*http.Request` the handlers read: the parsed form (`r.Form`) and the
route variables that `mux.Vars(r)` returns. -/
structure Request where
  Form : List (String × List String)
  Vars : List (String × String)
deriving DecidableEq, Repr

/-- Method `r.FormValue(key)`: the first value of the field, `""` when there is none. -/
def Request.FormValue (r : Request) (key : String) : String :=
  match r.Form.lookup key with
  | some (v :: _) => v
  | _ => ""

/-- Map index `mux.Vars(r)[key]`: the zero value `""` for a missing key. -/
def Request.Var (r : Request) (key : String) : String :=
  (r.Vars.lookup key).getD ""

/-- What a handler wrote to its `http.ResponseWriter`. -/
inductive Body where
  | empty
  | text (s : String)
  | json (v : JsonValue)
deriving DecidableEq, Repr

/-- Response of a handler: status code, `Content-Type` header and body. -/
structure Response where
  status : Nat
  contentType : Option String
  body : Body
deriving DecidableEq, Repr

def StatusOK : Nat := 200
def StatusCreated : Nat := 201
def StatusBadRequest : Nat := 400
def StatusNotFound : Nat := 404
def StatusInternalServerError : Nat := 500

/-- Function `http.Error(w, error, code)`: a plain-text response with the given code
whose body is the message followed by a newline. -/
def httpError (error : String) (code : Nat) : Response :=
  { status := code, contentType := some "text/plain; charset=utf-8", body := .text (error ++ "\n") }

/-- Call `w.WriteHeader(code)` with nothing written afterwards. -/
def writeHeader (code : Nat) : Response :=
  { status := code, contentType := none, body := .empty }

/-! ## The document store -/

/-- The `_id` values of a list of documents. -/
def ids (docs : List Task) : List ObjectID := docs.map Task.ID

/-- State of the collection `taskdb.tasks`: its documents in natural order. MongoDB
keeps a unique index on `_id`, so no two documents share one. -/
abbrev Store := { docs : List Task // (ids docs).Nodup }

/-- What the world outside the handler decides during one request: the identifier
`primitive.NewObjectID()` returns and, for each driver call, the error it reports
(`none`: the call succeeds). `NextErr = some (n, err)` says that `cursor.Next` fails with
`err` when it is asked for the record at position `n` of the cursor (fetching a further
batch from the server fails): `Next` then returns `false` and keeps `err` for
`cursor.Err()`. `DecodeErr i` is the outcome of `cursor.Decode` on the record at position
`i`; `DuplicateKeyErr` is the write error the server answers when an inserted `_id` is
already present. -/
structure Env where
  NewObjectID : ObjectID
  FindErr : Option GoError
  NextErr : Option (Nat × GoError)
  DecodeErr : Nat → Option GoError
  InsertOneErr : Option GoError
  DuplicateKeyErr : GoError
  DeleteOneErr : Option GoError
  UpdateOneErr : Option GoError

/-- Driver calls on the collection, as recorded in the trace of a request. -/
inductive StoreCall where
  | Find
  | InsertOne (doc : Task)
  | DeleteOne (id : ObjectID)
  | UpdateOne (id : ObjectID)
deriving DecidableEq, Repr

/-- Removes the first document whose `_id` is `id`. -/
def deleteFirst (id : ObjectID) (docs : List Task) : List Task :=
  docs.eraseP fun t => decide (t.ID = id)

/-- Applies `{"$set": {"completed": true}}` to the first document whose `_id` is `id`. -/
def setCompleted (id : ObjectID) : List Task → List Task
  | [] => []
  | t :: rest =>
    if t.ID = id then { t with Completed := true } :: rest else t :: setCompleted id rest

/-- Call `collection.Find(ctx, bson.M{})`: a cursor over all documents. -/
def Find (e : Env) (s : Store) : Except GoError (List Task) :=
  match e.FindErr with
  | some err => .error err
  | none => .ok s.val

/-- Call `collection.InsertOne(ctx, task)`: appends the document; the server refuses a
document whose `_id` is already present. A failed call leaves the collection as it was. -/
def InsertOne (e : Env) (s : Store) (task : Task) : Except GoError Store :=
  match e.InsertOneErr with
  | some err => .error err
  | none =>
    if h : task.ID ∈ ids s.val then .error e.DuplicateKeyErr
    else .ok ⟨s.val ++ [task], by
      have hs := s.property
      simp only [ids, List.map_append, List.map_cons, List.map_nil] at h hs ⊢
      exact List.Nodup.append hs (List.nodup_singleton _) (by simpa using h)⟩

/-- Result of `DeleteOne`. -/
structure DeleteResult where
  DeletedCount : Nat
deriving DecidableEq, Repr

/-- Call `collection.DeleteOne(ctx, bson.M{"_id": id})`: removes the first matching
document and reports how many were removed. -/
def DeleteOne (e : Env) (s : Store) (id : ObjectID) : Except GoError (DeleteResult × Store) :=
  match e.DeleteOneErr with
  | some err => .error err
  | none =>
    .ok (⟨s.val.length - (deleteFirst id s.val).length⟩,
      ⟨deleteFirst id s.val,
        List.Nodup.sublist (List.Sublist.map Task.ID (List.eraseP_sublist s.val)) s.property⟩)

/-- Call `collection.UpdateOne(ctx, bson.M{"_id": id}, bson.M{"$set": {"completed": true}})`:
sets the flag on the first matching document; no match is not an error. -/
def UpdateOne (e : Env) (s : Store) (id : ObjectID) : Except GoError Store :=
  match e.UpdateOneErr with
  | some err => .error err
  | none =>
    .ok ⟨setCompleted id s.val, by
      have key : ∀ l : List Task, ids (setCompleted id l) = ids l := by
        intro l
        induction l with
        | nil => rfl
        | cons t rest ih =>
          by_cases ht : t.ID = id
          · simp [setCompleted, ids, ht]
          · simp only [setCompleted, ht, if_false, ids, List.map_cons] at ih ⊢
            rw [ih]
      rw [key]
      exact s.property⟩

/-- Call `cursor.Next(ctx)` at position `i` of a cursor with the records `remaining`
still to deliver: `true` when a record is there and fetching it does not fail. -/
def cursorNext (e : Env) (i : Nat) (remaining : List Task) : Bool :=
  match e.NextErr with
  | some (n, _) => decide (n ≠ i) && !remaining.isEmpty
  | none => !remaining.isEmpty

/-- The loop `for cursor.Next(ctx) { cursor.Decode(&task); tasks = append(tasks, task) }`
from position `i` of the cursor on. The first failing `Decode` ends it with that error.
A `Next` that returns `false` ends it without one, whether the cursor is exhausted or
failed: the handler never reads `cursor.Err()`. -/
def decodeLoop (e : Env) : Nat → List Task → TaskSlice → Except GoError TaskSlice
  | _, [], tasks => .ok tasks
  | i, doc :: rest, tasks =>
    if cursorNext e i (doc :: rest) then
      match e.DecodeErr i with
      | some err => .error err
      | none => decodeLoop e (i + 1) rest (tasks.append doc)
    else .ok tasks

/-! ## The handlers -/

/-- Outcome of one request: the response written, the collection afterwards and the
driver calls issued, in order. -/
structure Result where
  resp : Response
  store : Store
  calls : List StoreCall

/-- Handler of `GET /tasks`. -/
def getTasksHandler (e : Env) (s : Store) (_r : Request) : Result :=
  match Find e s with
  | .error err => ⟨httpError err.Error StatusInternalServerError, s, [.Find]⟩
  | .ok cursor =>
    match decodeLoop e 0 cursor none with
    | .error err => ⟨httpError err.Error StatusInternalServerError, s, [.Find]⟩
    | .ok tasks =>
      match jsonMarshal tasks with
      | .error err => ⟨httpError err.Error StatusInternalServerError, s, [.Find]⟩
      | .ok jsonTasks =>
        ⟨{ status := StatusOK, contentType := some "application/json",
           body := .json jsonTasks }, s, [.Find]⟩

/-- Handler of `POST /tasks`. -/
def addTaskHandler (e : Env) (s : Store) (r : Request) : Result :=
  let description := r.FormValue "description"
  if description = "" then
    ⟨httpError "Task description is required" StatusBadRequest, s, []⟩
  else
    let task : Task := { ID := e.NewObjectID, Description := description, Completed := false }
    match InsertOne e s task with
    | .error err => ⟨httpError err.Error StatusInternalServerError, s, [.InsertOne task]⟩
    | .ok s' => ⟨writeHeader StatusCreated, s', [.InsertOne task]⟩

/-- Handler of `DELETE /tasks/{id}`. -/
def deleteTaskHandler (e : Env) (s : Store) (r : Request) : Result :=
  let id := r.Var "id"
  match ObjectIDFromHex id with
  | .error err => ⟨httpError err.Error StatusBadRequest, s, []⟩
  | .ok objectID =>
    match DeleteOne e s objectID with
    | .error err => ⟨httpError err.Error StatusInternalServerError, s, [.DeleteOne objectID]⟩
    | .ok (result, s') =>
      if result.DeletedCount = 0 then
        ⟨httpError "Task not found" StatusNotFound, s', [.DeleteOne objectID]⟩
      else ⟨writeHeader StatusOK, s', [.DeleteOne objectID]⟩

/-- Handler of `PUT /tasks/{id}`. -/
def completeTaskHandler (e : Env) (s : Store) (r : Request) : Result :=
  let id := r.Var "id"
  match ObjectIDFromHex id with
  | .error err => ⟨httpError err.Error StatusBadRequest, s, []⟩
  | .ok objectID =>
    match UpdateOne e s objectID with
    | .error err => ⟨httpError err.Error StatusInternalServerError, s, [.UpdateOne objectID]⟩
    | .ok s' => ⟨writeHeader StatusOK, s', [.UpdateOne objectID]⟩

/-! ## Routes and vocabulary of the claims -/

/-- The hexadecimal characters: the digits and the letters `a`-`f` in either case. -/
def isHexadecimal (c : Char) : Bool := "0123456789abcdefABCDEF".data.contains c

/-- Elements of a JSON value written by the list request (`null` has none). -/
def JsonValue.items : JsonValue → List TaskJson
  | .null => []
  | .array l => l

/-- The four routes of `main` that reach the store. -/
inductive Op where
  | list
  | create
  | delete
  | complete
deriving DecidableEq, Repr

/-- The handler that `main` registers for each operation (`GET /tasks`, `POST /tasks`,
`DELETE /tasks/{id}`, `PUT /tasks/{id}`), called on any request. The path pattern
`{id:[0-9a-f]+}` of the router is not applied here: the router answers a path that does
not match with 404 without calling a handler, so the requests it dispatches are among
those covered. -/
def route : Op → Env → Store → Request → Result
  | .list => getTasksHandler
  | .create => addTaskHandler
  | .delete => deleteTaskHandler
  | .complete => completeTaskHandler

/-- Data-model invariant of the specification: every stored task has a non-empty
description and no two stored tasks share an identifier. -/
def Inv (docs : List Task) : Prop :=
  (∀ t ∈ docs, t.Description ≠ "") ∧ (ids docs).Nodup

/-! ## Example data -/

/-- An identifier, `0102030405060708090a0b0c` in hex. -/
def exampleID : ObjectID := ⟨[1, 2, 3, 4, 5, 6, 7, 8, 9, 10, 11, 12], by decide⟩

/-- Another identifier, `aabbccddeeff001122334455` in hex. -/
def otherID : ObjectID :=
  ⟨[170, 187, 204, 221, 238, 255, 0, 17, 34, 51, 68, 85], by decide⟩

/-- An environment in which every driver call succeeds and `NewObjectID` returns `id`. -/
def Env.succeeding (id : ObjectID) : Env :=
  { NewObjectID := id, FindErr := none, NextErr := none, DecodeErr := fun _ => none,
    InsertOneErr := none,
    DuplicateKeyErr := ⟨"E11000 duplicate key error"⟩, DeleteOneErr := none,
    UpdateOneErr := none }

/-- An environment in which every driver call fails with the given error. -/
def Env.failing (err : GoError) : Env :=
  { NewObjectID := otherID, FindErr := some err, NextErr := some (0, err),
    DecodeErr := fun _ => some err,
    InsertOneErr := some err, DuplicateKeyErr := ⟨"E11000 duplicate key error"⟩,
    DeleteOneErr := some err, UpdateOneErr := some err }

/-- The collection without documents. -/
def emptyStore : Store := ⟨[], List.nodup_nil⟩

/-- A collection holding one open task. -/
def oneTaskStore : Store :=
  ⟨[{ ID := exampleID, Description := "buy milk", Completed := false }], by decide⟩

/-- A collection holding two open tasks. -/
def twoTaskStore : Store :=
  ⟨[{ ID := exampleID, Description := "buy milk", Completed := false },
    { ID := otherID, Description := "call home", Completed := false }], by decide⟩

/-! ## Lemmas on `encoding/hex` and identifiers -/

theorem utf8Encode_ascii (c : Char) (h : c.toNat ≤ 0x7f) : utf8Encode c = [c.toNat] := by
  simp [utf8Encode, h]

theorem fromHexChar_hexDigit (n : Nat) (h : n < 16) :
    (hexDigit n).toNat ≤ 0x7f ∧ fromHexChar (hexDigit n).toNat = some n := by
  interval_cases n <;> decide

theorem goBytes_hexEncode (bs : List Nat) (h : ∀ b ∈ bs, b < 256) :
    goBytes (hexEncode bs)
      = bs.flatMap fun b => [(hexDigit (b / 16)).toNat, (hexDigit (b % 16)).toNat] := by
  induction bs with
  | nil => rfl
  | cons b rest ih =>
    have hb : b < 256 := h b (List.mem_cons_self _ _)
    have h1 := (fromHexChar_hexDigit (b / 16) (by omega)).1
    have h2 := (fromHexChar_hexDigit (b % 16) (by omega)).1
    have ih' := ih fun x hx => h x (List.mem_cons_of_mem _ hx)
    simp only [goBytes, hexEncode, List.flatMap_cons, List.cons_append, List.nil_append,
      utf8Encode_ascii _ h1, utf8Encode_ascii _ h2] at ih' ⊢
    rw [ih']

theorem hexDecode_encoded (bs : List Nat) (h : ∀ b ∈ bs, b < 256) :
    hexDecode (bs.flatMap fun b => [(hexDigit (b / 16)).toNat, (hexDigit (b % 16)).toNat])
      = .ok bs := by
  induction bs with
  | nil => rfl
  | cons b rest ih =>
    have hb : b < 256 := h b (List.mem_cons_self _ _)
    have h1 := (fromHexChar_hexDigit (b / 16) (by omega)).2
    have h2 := (fromHexChar_hexDigit (b % 16) (by omega)).2
    have ih' := ih fun x hx => h x (List.mem_cons_of_mem _ hx)
    have hdm : b / 16 * 16 + b % 16 = b := by omega
    show hexDecode ((hexDigit (b / 16)).toNat :: (hexDigit (b % 16)).toNat ::
      rest.flatMap fun b => [(hexDigit (b / 16)).toNat, (hexDigit (b % 16)).toNat]) = _
    simp only [hexDecode, h1, h2, ih', hdm]

theorem ObjectIDFromHex_Hex (id : ObjectID) : ObjectIDFromHex id.Hex = .ok id := by
  obtain ⟨bs, hlen, hlt⟩ := id
  have hb := goBytes_hexEncode bs hlt
  have hl2 : ∀ l : List Nat, (l.flatMap fun b =>
      [(hexDigit (b / 16)).toNat, (hexDigit (b % 16)).toNat]).length = 2 * l.length := by
    intro l
    induction l with
    | nil => rfl
    | cons x xs ih => simp only [List.flatMap_cons, List.length_append, List.length_cons,
        List.length_nil, ih]; omega
  have hl : (goBytes (hexEncode bs)).length = 24 := by
    rw [hb, hl2, hlen]
  simp only [ObjectIDFromHex, ObjectID.Hex, hl, ne_eq, not_true_eq_false, if_false]
  rw [hb, hexDecode_encoded bs hlt]
  exact dif_pos ⟨hlen, hlt⟩

theorem Hex_injective (a b : ObjectID) (h : a.Hex = b.Hex) : a = b := by
  have ha := ObjectIDFromHex_Hex a
  rw [h, ObjectIDFromHex_Hex b] at ha
  exact (Except.ok.inj ha).symm

theorem hexDecode_ok_digits : ∀ (l out : List Nat), hexDecode l = .ok out →
    ∀ b ∈ l, fromHexChar b ≠ none
  | [], _, _ => by simp
  | [p], out, h => by
    simp only [hexDecode] at h
    split at h <;> cases h
  | p :: q :: rest, out, h => by
    simp only [hexDecode] at h
    split at h
    · cases h
    · rename_i a ha
      split at h
      · cases h
      · rename_i b hb
        split at h
        · cases h
        · rename_i out2 hrest
          intro x hx
          simp only [List.mem_cons] at hx
          rcases hx with rfl | rfl | hx
          · simp [ha]
          · simp [hb]
          · exact hexDecode_ok_digits rest out2 hrest x hx

theorem utf8Encode_nonhex (c : Char) (h : isHexadecimal c = false) :
    ∃ b ∈ utf8Encode c, fromHexChar b = none := by
  by_cases hc : c.toNat ≤ 0x7f
  · refine ⟨c.toNat, by simp [utf8Encode_ascii c hc], ?_⟩
    have hn : c = Char.ofNat c.toNat := by simp
    generalize c.toNat = n at hc hn
    subst hn
    interval_cases n <;> first | rfl | (exfalso; revert h; decide)
  · have hv := c.valid
    refine ⟨(utf8Encode c).head (by unfold utf8Encode; simp only []; split_ifs <;> simp), List.head_mem _, ?_⟩
    unfold utf8Encode fromHexChar
    simp only []
    split_ifs <;> simp only [List.head_cons] <;>
      rw [if_neg (by omega), if_neg (by omega), if_neg (by omega)]

/-! ## Lemmas on the collection -/

theorem eq_of_ID_eq {docs : List Task} (hn : (ids docs).Nodup) {t t' : Task}
    (ht : t ∈ docs) (ht' : t' ∈ docs) (h : t.ID = t'.ID) : t = t' :=
  List.inj_on_of_nodup_map hn ht ht' h

theorem deleteFirst_of_not_mem (id : ObjectID) (docs : List Task) (h : id ∉ ids docs) :
    deleteFirst id docs = docs := by
  apply List.eraseP_of_forall_not
  intro t ht
  have : t.ID ≠ id := fun heq => h (heq ▸ List.mem_map_of_mem Task.ID ht)
  simpa using this

theorem length_deleteFirst_of_mem (id : ObjectID) (docs : List Task) (h : id ∈ ids docs) :
    (deleteFirst id docs).length = docs.length - 1 := by
  obtain ⟨t, ht, hid⟩ := List.mem_map.1 h
  exact List.length_eraseP_of_mem ht (by simpa using hid)

theorem mem_deleteFirst_of_ne {id : ObjectID} {docs : List Task} {t : Task}
    (ht : t ∈ docs) (hne : t.ID ≠ id) : t ∈ deleteFirst id docs :=
  (List.mem_eraseP_of_neg (by simpa using hne)).2 ht

theorem not_mem_ids_deleteFirst (id : ObjectID) (docs : List Task) (hn : (ids docs).Nodup) :
    id ∉ ids (deleteFirst id docs) := by
  induction docs with
  | nil => simp [deleteFirst, ids]
  | cons t rest ih =>
    have hn' : t.ID ∉ ids rest ∧ (ids rest).Nodup := by simpa [ids] using hn
    by_cases ht : t.ID = id
    · have : deleteFirst id (t :: rest) = rest := by simp [deleteFirst, List.eraseP_cons, ht]
      rw [this, ← ht]
      exact hn'.1
    · have : deleteFirst id (t :: rest) = t :: deleteFirst id rest := by
        simp [deleteFirst, List.eraseP_cons, ht]
      rw [this]
      have := ih hn'.2
      simp only [ids, List.map_cons, List.mem_cons, not_or] at this ⊢
      exact ⟨fun h => ht h.symm, this⟩

theorem setCompleted_of_not_mem (id : ObjectID) (docs : List Task) (h : id ∉ ids docs) :
    setCompleted id docs = docs := by
  induction docs with
  | nil => rfl
  | cons t rest ih =>
    simp only [ids, List.map_cons, List.mem_cons, not_or] at h
    have ht : ¬ t.ID = id := fun heq => h.1 heq.symm
    simp only [setCompleted, ht, if_false]
    rw [ih h.2]

theorem setCompleted_idem (id : ObjectID) (docs : List Task) :
    setCompleted id (setCompleted id docs) = setCompleted id docs := by
  induction docs with
  | nil => rfl
  | cons t rest ih =>
    by_cases ht : t.ID = id
    · simp [setCompleted, ht]
    · simp only [setCompleted, ht, if_false]
      rw [ih]

theorem ids_setCompleted (id : ObjectID) (docs : List Task) :
    ids (setCompleted id docs) = ids docs := by
  induction docs with
  | nil => rfl
  | cons t rest ih =>
    by_cases ht : t.ID = id
    · simp [setCompleted, ids, ht]
    · simp only [setCompleted, ht, if_false, ids, List.map_cons] at ih ⊢
      rw [ih]

/-- Every document after the update is a document from before, or the completed copy of
a document from before that carries the identifier. -/
theorem mem_setCompleted {id : ObjectID} {docs : List Task} {t' : Task}
    (h : t' ∈ setCompleted id docs) :
    t' ∈ docs ∨ ∃ t ∈ docs, t.ID = id ∧ t' = { t with Completed := true } := by
  induction docs with
  | nil => simp [setCompleted] at h
  | cons t rest ih =>
    by_cases ht : t.ID = id
    · simp only [setCompleted] at h
      rw [if_pos ht] at h
      rcases List.mem_cons.1 h with h | h
      · exact Or.inr ⟨t, List.mem_cons_self _ _, ht, h⟩
      · exact Or.inl (List.mem_cons_of_mem _ h)
    · simp only [setCompleted, ht, if_false, List.mem_cons] at h
      rcases h with h | h
      · exact Or.inl (h ▸ List.mem_cons_self _ _)
      · rcases ih h with h' | ⟨t0, h0, h1, h2⟩
        · exact Or.inl (List.mem_cons_of_mem _ h')
        · exact Or.inr ⟨t0, List.mem_cons_of_mem _ h0, h1, h2⟩

/-- With distinct identifiers, the document carrying `id` is completed by the update and
all documents carrying `id` afterwards are completed. -/
theorem setCompleted_spec (id : ObjectID) {docs : List Task} (hn : (ids docs).Nodup) :
    (∀ t ∈ docs, t.ID = id → { t with Completed := true } ∈ setCompleted id docs) ∧
    (∀ t' ∈ setCompleted id docs, t'.ID = id → t'.Completed = true) := by
  induction docs with
  | nil => simp [setCompleted]
  | cons t rest ih =>
    have hn' : t.ID ∉ ids rest ∧ (ids rest).Nodup := by simpa [ids] using hn
    by_cases ht : t.ID = id
    · simp only [setCompleted]
      rw [if_pos ht]
      constructor
      · intro x hx hxid
        rcases List.mem_cons.1 hx with rfl | hx
        · exact List.mem_cons_self _ _
        · exact absurd (List.mem_map_of_mem Task.ID hx) (by rw [hxid, ← ht]; exact hn'.1)
      · intro x hx hxid
        rcases List.mem_cons.1 hx with rfl | hx
        · rfl
        · exact absurd (List.mem_map_of_mem Task.ID hx) (by rw [hxid, ← ht]; exact hn'.1)
    · simp only [setCompleted, ht, if_false]
      obtain ⟨ih1, ih2⟩ := ih hn'.2
      constructor
      · intro x hx hxid
        rcases List.mem_cons.1 hx with rfl | hx
        · exact absurd hxid ht
        · exact List.mem_cons_of_mem _ (ih1 x hx hxid)
      · intro x hx hxid
        rcases List.mem_cons.1 hx with rfl | hx
        · exact absurd hxid ht
        · exact ih2 x hx hxid

theorem decodeLoop_ok (e : Env) (hn : e.NextErr = none) (h : ∀ i, e.DecodeErr i = none) :
    ∀ (docs : List Task) (i : Nat) (tasks : TaskSlice),
      decodeLoop e i docs tasks
        = .ok (if docs = [] then tasks else some (tasks.getD [] ++ docs))
  | [], _, _ => by simp [decodeLoop]
  | doc :: rest, i, tasks => by
    simp only [decodeLoop, cursorNext, hn, h, decodeLoop_ok e hn h rest]
    cases tasks <;> cases rest <;> simp [TaskSlice.append]

/-- The loop when `Next` fails at position `n` and no earlier `Decode` does: it ends
without an error, holding the records before position `n`. -/
theorem decodeLoop_next_fails (e : Env) (n : Nat) (err : GoError)
    (hn : e.NextErr = some (n, err)) :
    ∀ (docs : List Task) (i : Nat) (tasks : TaskSlice), i ≤ n →
      (∀ j, i ≤ j → j < n → e.DecodeErr j = none) →
      decodeLoop e i docs tasks
        = .ok (if docs.take (n - i) = [] then tasks
               else some (tasks.getD [] ++ docs.take (n - i)))
  | [], _, _, _, _ => by simp [decodeLoop]
  | doc :: rest, i, tasks, hi, hd => by
    by_cases hni : n = i
    · subst hni
      simp [decodeLoop, cursorNext, hn]
    · have hlt : i < n := by omega
      have hstep : n - i = (n - (i + 1)) + 1 := by omega
      have ih := decodeLoop_next_fails e n err hn rest (i + 1) (tasks.append doc) (by omega)
        (fun j h1 h2 => hd j (by omega) h2)
      simp only [decodeLoop, cursorNext, hn, hd i (Nat.le_refl _) hlt, ih]
      rw [hstep, List.take_succ_cons]
      cases tasks <;> cases hrest : rest.take (n - (i + 1)) <;> simp [TaskSlice.append, hni]

/-- The list request when `Find`, `Next` and every `Decode` succeed: `null` for a collection
without documents, else the array of all documents. -/
theorem getTasksHandler_ok (e : Env) (s : Store) (r : Request)
    (hf : e.FindErr = none) (hn : e.NextErr = none) (hd : ∀ i, e.DecodeErr i = none) :
    getTasksHandler e s r
      = ⟨{ status := StatusOK, contentType := some "application/json",
           body := .json (if s.val = [] then .null else .array (s.val.map Task.toJson)) },
         s, [.Find]⟩ := by
  by_cases h : s.val = [] <;> simp [getTasksHandler, Find, hf, decodeLoop_ok e hn hd, jsonMarshal, h]

theorem items_listed (docs : List Task) :
    (if docs = [] then JsonValue.null else .array (docs.map Task.toJson)).items
      = docs.map Task.toJson := by
  cases docs <;> simp [JsonValue.items]

theorem FormValue_missing (r : Request) (key : String) (h : r.Form.lookup key = none) :
    r.FormValue key = "" := by
  simp [Request.FormValue, h]

theorem ObjectIDFromHex_nonhex (s : String) (h : ∃ c ∈ s.data, isHexadecimal c = false) :
    ∃ err, ObjectIDFromHex s = .error err := by
  obtain ⟨c, hc, hx⟩ := h
  obtain ⟨b, hb, hbad⟩ := utf8Encode_nonhex c hx
  have hmem : b ∈ goBytes s := List.mem_flatMap.2 ⟨c, hc, hb⟩
  unfold ObjectIDFromHex
  split_ifs with hlen
  · exact ⟨_, rfl⟩
  · cases hdec : hexDecode (goBytes s) with
    | error err => exact ⟨err, rfl⟩
    | ok out => exact absurd hbad (hexDecode_ok_digits _ _ hdec b hmem)

theorem addTaskHandler_ok (e : Env) (s : Store) (r : Request)
    (hd : r.FormValue "description" ≠ "")
    (hins : e.InsertOneErr = none) (hfresh : e.NewObjectID ∉ ids s.val) :
    (addTaskHandler e s r).resp = writeHeader StatusCreated ∧
    (addTaskHandler e s r).store.val
      = s.val ++ [{ ID := e.NewObjectID, Description := r.FormValue "description",
                    Completed := false }] := by
  simp [addTaskHandler, hd, InsertOne, hins, hfresh]

theorem deleteTaskHandler_ok (e : Env) (s : Store) (r : Request) (id : ObjectID)
    (hr : ObjectIDFromHex (r.Var "id") = .ok id) (hdel : e.DeleteOneErr = none) :
    (deleteTaskHandler e s r).store.val = deleteFirst id s.val ∧
    (deleteTaskHandler e s r).resp
      = if s.val.length - (deleteFirst id s.val).length = 0
        then httpError "Task not found" StatusNotFound else writeHeader StatusOK := by
  simp only [deleteTaskHandler, hr, DeleteOne, hdel]
  split_ifs <;> simp

theorem completeTaskHandler_ok (e : Env) (s : Store) (r : Request) (id : ObjectID)
    (hr : ObjectIDFromHex (r.Var "id") = .ok id) (hup : e.UpdateOneErr = none) :
    (completeTaskHandler e s r).store.val = setCompleted id s.val ∧
    (completeTaskHandler e s r).resp = writeHeader StatusOK := by
  simp only [completeTaskHandler, hr, UpdateOne, hup]
  simp

theorem getTasksHandler_store (e : Env) (s : Store) (r : Request) :
    (getTasksHandler e s r).store = s := by
  unfold getTasksHandler
  split
  · rfl
  · split
    · rfl
    · split <;> rfl

theorem addTaskHandler_store (e : Env) (s : Store) (r : Request) :
    (addTaskHandler e s r).store = s ∨
    (r.FormValue "description" ≠ "" ∧ e.NewObjectID ∉ ids s.val ∧
      (addTaskHandler e s r).store.val
        = s.val ++ [{ ID := e.NewObjectID, Description := r.FormValue "description",
                      Completed := false }]) := by
  by_cases hd : r.FormValue "description" = ""
  · left; simp [addTaskHandler, hd]
  · cases hins : e.InsertOneErr with
    | some err => left; simp [addTaskHandler, hd, InsertOne, hins]
    | none =>
      by_cases hfresh : e.NewObjectID ∈ ids s.val
      · left; simp [addTaskHandler, hd, InsertOne, hins, hfresh]
      · right; exact ⟨hd, hfresh, (addTaskHandler_ok e s r hd hins hfresh).2⟩

theorem deleteTaskHandler_store (e : Env) (s : Store) (r : Request) :
    (deleteTaskHandler e s r).store = s ∨
    ∃ id, ObjectIDFromHex (r.Var "id") = .ok id ∧
      (deleteTaskHandler e s r).store.val = deleteFirst id s.val := by
  cases hr : ObjectIDFromHex (r.Var "id") with
  | error err => left; simp [deleteTaskHandler, hr]
  | ok id =>
    cases hdel : e.DeleteOneErr with
    | some err => left; simp [deleteTaskHandler, hr, DeleteOne, hdel]
    | none => right; exact ⟨id, rfl, (deleteTaskHandler_ok e s r id hr hdel).1⟩

theorem completeTaskHandler_store (e : Env) (s : Store) (r : Request) :
    (completeTaskHandler e s r).store = s ∨
    ∃ id, ObjectIDFromHex (r.Var "id") = .ok id ∧
      (completeTaskHandler e s r).store.val = setCompleted id s.val := by
  cases hr : ObjectIDFromHex (r.Var "id") with
  | error err => left; simp [completeTaskHandler, hr]
  | ok id =>
    cases hup : e.UpdateOneErr with
    | some err => left; simp [completeTaskHandler, hr, UpdateOne, hup]
    | none => right; exact ⟨id, rfl, (completeTaskHandler_ok e s r id hr hup).1⟩

theorem decodeLoop_error (e : Env) (hnone : e.NextErr = none) :
    ∀ (docs : List Task) (i k : Nat) (tasks : TaskSlice) (err : GoError),
      k < docs.length → e.DecodeErr (i + k) = some err →
      (∀ j, j < k → e.DecodeErr (i + j) = none) →
      decodeLoop e i docs tasks = .error err
  | [], _, _, _, _, hk, _, _ => by simp at hk
  | doc :: rest, i, 0, tasks, err, _, herr, _ => by
    simp only [Nat.add_zero] at herr
    simp [decodeLoop, cursorNext, hnone, herr]
  | doc :: rest, i, k + 1, tasks, err, hk, herr, hbefore => by
    have h0 : e.DecodeErr i = none := by simpa using hbefore 0 (by omega)
    simp only [decodeLoop, cursorNext, hnone, h0]
    simp only [List.isEmpty_cons, Bool.not_false, if_true]
    apply decodeLoop_error e hnone rest (i + 1) k _ err (by simpa using hk)
    · rw [← herr]; congr 1; omega
    · intro j hj
      rw [← hbefore (j + 1) (by omega)]; congr 1; omega

/-- How a request changes the collection: not at all, by appending the new task, by
removing the first document with the parsed identifier, or by completing it. -/
theorem route_store (op : Op) (e : Env) (s : Store) (r : Request) :
    (route op e s r).store = s ∨
    (op = .create ∧ r.FormValue "description" ≠ "" ∧ e.NewObjectID ∉ ids s.val ∧
      (route op e s r).store.val
        = s.val ++ [⟨e.NewObjectID, r.FormValue "description", false⟩]) ∨
    (∃ id, op = .delete ∧ ObjectIDFromHex (r.Var "id") = .ok id ∧
      (route op e s r).store.val = deleteFirst id s.val) ∨
    (∃ id, op = .complete ∧ ObjectIDFromHex (r.Var "id") = .ok id ∧
      (route op e s r).store.val = setCompleted id s.val) := by
  cases op with
  | list => exact Or.inl (getTasksHandler_store e s r)
  | create =>
    rcases addTaskHandler_store e s r with h | ⟨h1, h2, h3⟩
    · exact Or.inl h
    · exact Or.inr (Or.inl ⟨rfl, h1, h2, h3⟩)
  | delete =>
    rcases deleteTaskHandler_store e s r with h | ⟨id, h1, h2⟩
    · exact Or.inl h
    · exact Or.inr (Or.inr (Or.inl ⟨id, rfl, h1, h2⟩))
  | complete =>
    rcases completeTaskHandler_store e s r with h | ⟨id, h1, h2⟩
    · exact Or.inl h
    · exact Or.inr (Or.inr (Or.inr ⟨id, rfl, h1, h2⟩))

/-! ## The claims -/

/-- C1: for every store state and every non-empty description (a whitespace-only one
included), when `InsertOne` succeeds on the fresh identifier, `addTaskHandler` responds 201,
and a following `getTasksHandler` whose `Find`, `Next` and `Decode` calls succeed responds 200 with
a JSON array that contains a task with that description and `completed = false`. -/
theorem create_then_list (e₁ e₂ : Env) (s : Store) (r r₂ : Request)
    (hd : r.FormValue "description" ≠ "")
    (hins : e₁.InsertOneErr = none) (hfresh : e₁.NewObjectID ∉ ids s.val)
    (hfind : e₂.FindErr = none) (hnext : e₂.NextErr = none)
    (hdec : ∀ i, e₂.DecodeErr i = none) :
    (addTaskHandler e₁ s r).resp.status = 201 ∧
    (getTasksHandler e₂ (addTaskHandler e₁ s r).store r₂).resp.status = 200 ∧
    ∃ items,
      (getTasksHandler e₂ (addTaskHandler e₁ s r).store r₂).resp.body = .json (.array items) ∧
      ∃ t ∈ items, t.description = r.FormValue "description" ∧ t.completed = false := by
  obtain ⟨h1, h2⟩ := addTaskHandler_ok e₁ s r hd hins hfresh
  rw [getTasksHandler_ok e₂ _ r₂ hfind hnext hdec, h1, h2]
  refine ⟨rfl, rfl, (s.val ++ [(⟨e₁.NewObjectID, r.FormValue "description", false⟩ : Task)]).map
    Task.toJson, ?_, ?_⟩
  · simp
  · exact ⟨_, List.mem_map_of_mem _ (List.mem_append_right _ (List.mem_singleton_self _)),
      rfl, rfl⟩

/-- C1 at a whitespace-only description, on a collection that already holds a task. -/
theorem create_then_list_witness :
    (addTaskHandler (Env.succeeding otherID) oneTaskStore ⟨[("description", ["  "])], []⟩).resp.status
      = 201 ∧
    (getTasksHandler (Env.succeeding otherID)
      (addTaskHandler (Env.succeeding otherID) oneTaskStore
        ⟨[("description", ["  "])], []⟩).store ⟨[], []⟩).resp.body
      = .json (.array [⟨"0102030405060708090a0b0c", "buy milk", false⟩,
                       ⟨"aabbccddeeff001122334455", "  ", false⟩]) := by
  have h := create_then_list (Env.succeeding otherID) (Env.succeeding otherID) oneTaskStore
    ⟨[("description", ["  "])], []⟩ ⟨[], []⟩ (by decide) rfl (by decide) rfl rfl (fun _ => rfl)
  exact ⟨h.1, by decide⟩

/-- C2: for every store state, `addTaskHandler` called with an empty or missing
description responds 400, leaves the store unchanged and issues no driver call. -/
theorem add_empty_description (e : Env) (s : Store) (r : Request)
    (h : r.Form.lookup "description" = none ∨ r.FormValue "description" = "") :
    (addTaskHandler e s r).resp.status = 400 ∧
    (addTaskHandler e s r).store = s ∧
    (addTaskHandler e s r).calls = [] := by
  have hd : r.FormValue "description" = "" := by
    rcases h with h | h
    · exact FormValue_missing r _ h
    · exact h
  simp [addTaskHandler, hd, httpError, StatusBadRequest]

/-- C2 at a request without form fields and at one whose description is empty. -/
theorem add_empty_description_witness :
    (addTaskHandler (Env.succeeding otherID) oneTaskStore ⟨[], []⟩).resp.status = 400 ∧
    (addTaskHandler (Env.succeeding otherID) oneTaskStore ⟨[], []⟩).store = oneTaskStore ∧
    (addTaskHandler (Env.succeeding otherID) oneTaskStore ⟨[("description", [""])], []⟩).store
      = oneTaskStore :=
  ⟨(add_empty_description (Env.succeeding otherID) oneTaskStore ⟨[], []⟩ (Or.inl rfl)).1,
   (add_empty_description (Env.succeeding otherID) oneTaskStore ⟨[], []⟩ (Or.inl rfl)).2.1,
   (add_empty_description (Env.succeeding otherID) oneTaskStore ⟨[("description", [""])], []⟩
      (Or.inr rfl)).2.1⟩

/-- C3: for every store state containing a task with identifier `id`, when the store
calls succeed, `deleteTaskHandler` on the hex string of `id` responds 200, no task of a
following `getTasksHandler` result carries `id`, and a second `deleteTaskHandler` on the
same identifier responds 404. -/
theorem delete_then_list_then_delete (e₁ e₂ e₃ : Env) (s : Store) (r r₂ : Request)
    (id : ObjectID) (hid : id ∈ ids s.val) (hr : r.Var "id" = id.Hex)
    (hdel : e₁.DeleteOneErr = none)
    (hfind : e₂.FindErr = none) (hnext : e₂.NextErr = none)
    (hdec : ∀ i, e₂.DecodeErr i = none)
    (hdel' : e₃.DeleteOneErr = none) :
    (deleteTaskHandler e₁ s r).resp.status = 200 ∧
    (∃ v, (getTasksHandler e₂ (deleteTaskHandler e₁ s r).store r₂).resp.body = .json v ∧
      ∀ t ∈ v.items, t.id ≠ id.Hex) ∧
    (deleteTaskHandler e₃ (deleteTaskHandler e₁ s r).store r).resp.status = 404 := by
  have hp : ObjectIDFromHex (r.Var "id") = .ok id := by rw [hr]; exact ObjectIDFromHex_Hex id
  obtain ⟨hs1, hr1⟩ := deleteTaskHandler_ok e₁ s r id hp hdel
  obtain ⟨hs2, hr2⟩ := deleteTaskHandler_ok e₃ (deleteTaskHandler e₁ s r).store r id hp hdel'
  have hlen := length_deleteFirst_of_mem id s.val hid
  have hpos : 0 < s.val.length := by
    obtain ⟨t, ht, _⟩ := List.mem_map.1 hid
    exact List.length_pos_of_mem ht
  have hgone : id ∉ ids (deleteFirst id s.val) := not_mem_ids_deleteFirst id s.val s.property
  refine ⟨?_, ?_, ?_⟩
  · rw [hr1, if_neg (by omega)]
    rfl
  · rw [getTasksHandler_ok e₂ _ r₂ hfind hnext hdec]
    refine ⟨_, rfl, ?_⟩
    rw [items_listed, hs1]
    intro t ht heq
    obtain ⟨t0, ht0, rfl⟩ := List.mem_map.1 ht
    have : t0.ID = id := Hex_injective _ _ heq
    exact hgone (List.mem_map.2 ⟨t0, ht0, this⟩)
  · rw [hr2, hs1, deleteFirst_of_not_mem id _ hgone, if_pos (by omega)]
    rfl

/-- C3 at a collection of two tasks, deleting the first: the other one is still listed. -/
theorem delete_then_list_then_delete_witness :
    (deleteTaskHandler (Env.succeeding otherID) twoTaskStore
      ⟨[], [("id", "0102030405060708090a0b0c")]⟩).resp.status = 200 ∧
    (getTasksHandler (Env.succeeding otherID)
      (deleteTaskHandler (Env.succeeding otherID) twoTaskStore
        ⟨[], [("id", "0102030405060708090a0b0c")]⟩).store ⟨[], []⟩).resp.body
      = .json (.array [⟨"aabbccddeeff001122334455", "call home", false⟩]) ∧
    (deleteTaskHandler (Env.succeeding otherID)
      (deleteTaskHandler (Env.succeeding otherID) twoTaskStore
        ⟨[], [("id", "0102030405060708090a0b0c")]⟩).store
      ⟨[], [("id", "0102030405060708090a0b0c")]⟩).resp.status = 404 := by
  have h := delete_then_list_then_delete (Env.succeeding otherID) (Env.succeeding otherID)
    (Env.succeeding otherID) twoTaskStore ⟨[], [("id", "0102030405060708090a0b0c")]⟩ ⟨[], []⟩
    exampleID (by decide) (by decide) rfl rfl rfl (fun _ => rfl) rfl
  exact ⟨h.1, by decide, h.2.2⟩

/-- C4: for every store state containing a task with identifier `id`, when the store
calls succeed, `completeTaskHandler` on `id` responds 200 and the following list shows the
task, with its description, as completed (and nothing with that identifier as open); a
second `completeTaskHandler` on `id` responds 200 and leaves the store exactly as the first
call left it. -/
theorem complete_then_list_idempotent (e₁ e₂ e₃ : Env) (s : Store) (r r₂ : Request)
    (t : Task) (ht : t ∈ s.val) (hr : r.Var "id" = t.ID.Hex)
    (hup : e₁.UpdateOneErr = none)
    (hfind : e₂.FindErr = none) (hnext : e₂.NextErr = none)
    (hdec : ∀ i, e₂.DecodeErr i = none)
    (hup' : e₃.UpdateOneErr = none) :
    (completeTaskHandler e₁ s r).resp.status = 200 ∧
    (∃ items,
      (getTasksHandler e₂ (completeTaskHandler e₁ s r).store r₂).resp.body
        = .json (.array items) ∧
      ⟨t.ID.Hex, t.Description, true⟩ ∈ items ∧
      ∀ x ∈ items, x.id = t.ID.Hex → x.completed = true) ∧
    (completeTaskHandler e₃ (completeTaskHandler e₁ s r).store r).resp.status = 200 ∧
    (completeTaskHandler e₃ (completeTaskHandler e₁ s r).store r).store
      = (completeTaskHandler e₁ s r).store := by
  have hp : ObjectIDFromHex (r.Var "id") = .ok t.ID := by rw [hr]; exact ObjectIDFromHex_Hex _
  obtain ⟨hs1, hr1⟩ := completeTaskHandler_ok e₁ s r t.ID hp hup
  obtain ⟨hs2, hr2⟩ := completeTaskHandler_ok e₃ (completeTaskHandler e₁ s r).store r t.ID hp hup'
  obtain ⟨hc1, hc2⟩ := setCompleted_spec t.ID s.property
  have hmem := hc1 t ht rfl
  refine ⟨by rw [hr1]; rfl, ?_, by rw [hr2]; rfl, ?_⟩
  · rw [getTasksHandler_ok e₂ _ r₂ hfind hnext hdec, hs1]
    refine ⟨(setCompleted t.ID s.val).map Task.toJson, ?_, ?_, ?_⟩
    · have hne : setCompleted t.ID s.val ≠ [] := List.ne_nil_of_mem hmem
      simp [hne]
    · exact List.mem_map.2 ⟨_, hmem, rfl⟩
    · intro x hx hxid
      obtain ⟨t0, ht0, rfl⟩ := List.mem_map.1 hx
      exact hc2 t0 ht0 (Hex_injective _ _ hxid)
  · apply Subtype.ext
    rw [hs2, hs1, setCompleted_idem]

/-- C4 at a collection holding one open task. -/
theorem complete_then_list_idempotent_witness :
    (completeTaskHandler (Env.succeeding otherID) oneTaskStore
      ⟨[], [("id", "0102030405060708090a0b0c")]⟩).resp.status = 200 ∧
    (getTasksHandler (Env.succeeding otherID)
      (completeTaskHandler (Env.succeeding otherID) oneTaskStore
        ⟨[], [("id", "0102030405060708090a0b0c")]⟩).store ⟨[], []⟩).resp.body
      = .json (.array [⟨"0102030405060708090a0b0c", "buy milk", true⟩]) ∧
    (completeTaskHandler (Env.succeeding otherID)
      (completeTaskHandler (Env.succeeding otherID) oneTaskStore
        ⟨[], [("id", "0102030405060708090a0b0c")]⟩).store
      ⟨[], [("id", "0102030405060708090a0b0c")]⟩).store
      = (completeTaskHandler (Env.succeeding otherID) oneTaskStore
        ⟨[], [("id", "0102030405060708090a0b0c")]⟩).store := by
  have h := complete_then_list_idempotent (Env.succeeding otherID) (Env.succeeding otherID)
    (Env.succeeding otherID) oneTaskStore ⟨[], [("id", "0102030405060708090a0b0c")]⟩ ⟨[], []⟩
    ⟨exampleID, "buy milk", false⟩ (by decide) (by decide) rfl rfl rfl (fun _ => rfl) rfl
  exact ⟨h.1, by decide, h.2.2.2⟩

/-- C5: for every store state and every identifier string that contains a character
that is no hexadecimal digit, `deleteTaskHandler` and `completeTaskHandler` respond 400,
leave the store unchanged and issue no driver call. -/
theorem malformed_id_rejected (e : Env) (s : Store) (r : Request)
    (h : ∃ c ∈ (r.Var "id").data, isHexadecimal c = false) :
    ((deleteTaskHandler e s r).resp.status = 400 ∧
      (deleteTaskHandler e s r).store = s ∧ (deleteTaskHandler e s r).calls = []) ∧
    ((completeTaskHandler e s r).resp.status = 400 ∧
      (completeTaskHandler e s r).store = s ∧ (completeTaskHandler e s r).calls = []) := by
  obtain ⟨err, herr⟩ := ObjectIDFromHex_nonhex _ h
  simp [deleteTaskHandler, completeTaskHandler, herr, httpError, StatusBadRequest]

/-- C5 at a 24-character identifier whose last character is `g`. -/
theorem malformed_id_rejected_witness :
    (deleteTaskHandler (Env.succeeding otherID) oneTaskStore
      ⟨[], [("id", "0102030405060708090a0b0g")]⟩).resp
      = httpError "encoding/hex: invalid byte: U+0067 'g'" 400 ∧
    (deleteTaskHandler (Env.succeeding otherID) oneTaskStore
      ⟨[], [("id", "0102030405060708090a0b0g")]⟩).store = oneTaskStore ∧
    (completeTaskHandler (Env.succeeding otherID) oneTaskStore
      ⟨[], [("id", "0102030405060708090a0b0g")]⟩).store = oneTaskStore := by
  have h := malformed_id_rejected (Env.succeeding otherID) oneTaskStore
    ⟨[], [("id", "0102030405060708090a0b0g")]⟩ ⟨'g', by decide, by decide⟩
  exact ⟨by decide, h.1.2.1, h.2.2.1⟩

/-- C6: on a store without tasks, when `Find` succeeds, `getTasksHandler` responds 200
with the JSON value `null` as its body, which is not the empty array: the slice
`tasks` is still nil when it reaches `json.Marshal`. -/
theorem list_empty_store_null (e : Env) (r : Request) (hf : e.FindErr = none) :
    (getTasksHandler e emptyStore r).resp.status = 200 ∧
    (getTasksHandler e emptyStore r).resp.body = .json .null ∧
    (getTasksHandler e emptyStore r).resp.body ≠ .json (.array []) := by
  have h : (getTasksHandler e emptyStore r).resp
      = ⟨StatusOK, some "application/json", .json .null⟩ := by
    simp [getTasksHandler, Find, hf, emptyStore, decodeLoop, jsonMarshal]
  rw [h]
  exact ⟨rfl, rfl, by decide⟩

/-- C6 evaluated in an environment where every driver call succeeds. -/
theorem list_empty_store_null_witness :
    (getTasksHandler (Env.succeeding exampleID) emptyStore ⟨[], []⟩).resp.status = 200 ∧
    (getTasksHandler (Env.succeeding exampleID) emptyStore ⟨[], []⟩).resp.body = .json .null :=
  ⟨(list_empty_store_null (Env.succeeding exampleID) ⟨[], []⟩ rfl).1,
   (list_empty_store_null (Env.succeeding exampleID) ⟨[], []⟩ rfl).2.1⟩

/-- C7: for every store state and every well-formed identifier that matches no stored
task, when `UpdateOne` reports no error, `completeTaskHandler` responds 200 with an empty
body, the response it gives on any other store state (one holding the task included), and
the store is unchanged. -/
theorem complete_nonexistent (e : Env) (s : Store) (r : Request) (id : ObjectID)
    (hp : ObjectIDFromHex (r.Var "id") = .ok id) (hno : id ∉ ids s.val)
    (hup : e.UpdateOneErr = none) :
    (completeTaskHandler e s r).resp = ⟨200, none, .empty⟩ ∧
    (completeTaskHandler e s r).store = s ∧
    ∀ s₂ : Store, (completeTaskHandler e s₂ r).resp = (completeTaskHandler e s r).resp := by
  obtain ⟨hs, hr⟩ := completeTaskHandler_ok e s r id hp hup
  refine ⟨by rw [hr]; rfl, ?_, ?_⟩
  · apply Subtype.ext
    rw [hs, setCompleted_of_not_mem id s.val hno]
  · intro s₂
    rw [hr, (completeTaskHandler_ok e s₂ r id hp hup).2]

/-- C7 at a collection that holds another task only. -/
theorem complete_nonexistent_witness :
    (completeTaskHandler (Env.succeeding exampleID) oneTaskStore
      ⟨[], [("id", "aabbccddeeff001122334455")]⟩).resp.status = 200 ∧
    (completeTaskHandler (Env.succeeding exampleID) oneTaskStore
      ⟨[], [("id", "aabbccddeeff001122334455")]⟩).store = oneTaskStore := by
  have h := complete_nonexistent (Env.succeeding exampleID) oneTaskStore
    ⟨[], [("id", "aabbccddeeff001122334455")]⟩ otherID (ObjectIDFromHex_Hex otherID)
    (by decide) rfl
  exact ⟨by rw [h.1], h.2.1⟩

/-- The store errors that the handlers check: with valid input, whenever `Find`,
`InsertOne`, `DeleteOne` or `UpdateOne` returns an error, the handler's one response is
`http.Error` with that error's text and status 500, and the store is as before; for list
the same holds for the first `Decode` that fails when `Next` does not fail, whatever was
decoded before it. -/
theorem store_error_gives_500 (e : Env) (s : Store) (r : Request) (err : GoError) :
    (Find e s = .error err →
      getTasksHandler e s r = ⟨httpError err.Error 500, s, [.Find]⟩) ∧
    (∀ cursor k, Find e s = .ok cursor → e.NextErr = none → k < cursor.length →
      e.DecodeErr k = some err →
      (∀ j, j < k → e.DecodeErr j = none) →
      getTasksHandler e s r = ⟨httpError err.Error 500, s, [.Find]⟩) ∧
    (r.FormValue "description" ≠ "" →
      InsertOne e s ⟨e.NewObjectID, r.FormValue "description", false⟩ = .error err →
      addTaskHandler e s r = ⟨httpError err.Error 500, s,
        [.InsertOne ⟨e.NewObjectID, r.FormValue "description", false⟩]⟩) ∧
    (∀ id, ObjectIDFromHex (r.Var "id") = .ok id → DeleteOne e s id = .error err →
      deleteTaskHandler e s r = ⟨httpError err.Error 500, s, [.DeleteOne id]⟩) ∧
    (∀ id, ObjectIDFromHex (r.Var "id") = .ok id → UpdateOne e s id = .error err →
      completeTaskHandler e s r = ⟨httpError err.Error 500, s, [.UpdateOne id]⟩) ∧
    (httpError err.Error 500).status = 500 ∧
    (httpError err.Error 500).body = .text (err.Error ++ "\n") := by
  refine ⟨?_, ?_, ?_, ?_, ?_, rfl, rfl⟩
  · intro h
    simp [getTasksHandler, h, StatusInternalServerError]
  · intro cursor k hf hnext hk herr hbefore
    have hd : decodeLoop e 0 cursor none = .error err :=
      decodeLoop_error e hnext cursor 0 k none err hk (by simpa using herr)
        (fun j hj => by simpa using hbefore j hj)
    simp [getTasksHandler, hf, hd, StatusInternalServerError]
  · intro hd h
    simp only [addTaskHandler, hd, if_false, h]
    rfl
  · intro id hp h
    simp only [deleteTaskHandler, hp, h]
    rfl
  · intro id hp h
    simp only [completeTaskHandler, hp, h]
    rfl

/-- The checked store errors with every driver call failing with `connection refused`,
and with `Find` and `Next` succeeding but the first `Decode` failing. -/
theorem store_error_gives_500_witness :
    (getTasksHandler (Env.failing ⟨"connection refused"⟩) oneTaskStore ⟨[], []⟩).resp
      = ⟨500, some "text/plain; charset=utf-8", .text "connection refused\n"⟩ ∧
    (getTasksHandler { Env.failing ⟨"connection refused"⟩ with FindErr := none, NextErr := none } oneTaskStore
      ⟨[], []⟩).resp = httpError "connection refused" 500 ∧
    (addTaskHandler (Env.failing ⟨"connection refused"⟩) oneTaskStore
      ⟨[("description", ["buy milk"])], []⟩).resp = httpError "connection refused" 500 ∧
    (deleteTaskHandler (Env.failing ⟨"connection refused"⟩) oneTaskStore
      ⟨[], [("id", "0102030405060708090a0b0c")]⟩).resp = httpError "connection refused" 500 ∧
    (completeTaskHandler (Env.failing ⟨"connection refused"⟩) oneTaskStore
      ⟨[], [("id", "0102030405060708090a0b0c")]⟩).resp = httpError "connection refused" 500 :=
  ⟨congrArg Result.resp
    ((store_error_gives_500 (Env.failing ⟨"connection refused"⟩) oneTaskStore ⟨[], []⟩
      ⟨"connection refused"⟩).1 rfl),
   congrArg Result.resp
    ((store_error_gives_500 { Env.failing ⟨"connection refused"⟩ with FindErr := none, NextErr := none }
      oneTaskStore ⟨[], []⟩ ⟨"connection refused"⟩).2.1 oneTaskStore.val 0 rfl rfl (by decide) rfl
      (fun _ hj => absurd hj (Nat.not_lt_zero _))),
   congrArg Result.resp
    ((store_error_gives_500 (Env.failing ⟨"connection refused"⟩) oneTaskStore
      ⟨[("description", ["buy milk"])], []⟩ ⟨"connection refused"⟩).2.2.1 (by decide) rfl),
   congrArg Result.resp
    ((store_error_gives_500 (Env.failing ⟨"connection refused"⟩) oneTaskStore
      ⟨[], [("id", "0102030405060708090a0b0c")]⟩ ⟨"connection refused"⟩).2.2.2.1 exampleID
      (ObjectIDFromHex_Hex exampleID) rfl),
   congrArg Result.resp
    ((store_error_gives_500 (Env.failing ⟨"connection refused"⟩) oneTaskStore
      ⟨[], [("id", "0102030405060708090a0b0c")]⟩ ⟨"connection refused"⟩).2.2.2.2.1 exampleID
      (ObjectIDFromHex_Hex exampleID) rfl)⟩

/-- C8: the claim fails for the list operation. When `Find` succeeds, `cursor.Next` fails
with an error at position `n` of the cursor and the records before it decode, the handler
responds 200 with the records decoded so far (`null` when there are none), not with 500
and the error's text: `getTasksHandler` never reads `cursor.Err()`. -/
theorem cursor_error_gives_200 (e : Env) (s : Store) (r : Request) (n : Nat) (err : GoError)
    (hf : e.FindErr = none) (hn : e.NextErr = some (n, err))
    (hd : ∀ j, j < n → e.DecodeErr j = none) :
    (getTasksHandler e s r).resp.status = 200 ∧
    (getTasksHandler e s r).resp.body
      = .json (if s.val.take n = [] then .null
               else .array ((s.val.take n).map Task.toJson)) ∧
    (getTasksHandler e s r).resp ≠ httpError err.Error 500 := by
  have hl := decodeLoop_next_fails e n err hn s.val 0 none (Nat.zero_le _)
    (fun j _ hj => hd j hj)
  have h : (getTasksHandler e s r).resp
      = ⟨StatusOK, some "application/json",
          .json (if s.val.take n = [] then .null
                 else .array ((s.val.take n).map Task.toJson))⟩ := by
    by_cases ht : s.val.take n = [] <;>
      simp [getTasksHandler, Find, hf, hl, jsonMarshal, ht]
  rw [h]
  refine ⟨rfl, rfl, ?_⟩
  intro hc
  have := congrArg Response.status hc
  simp [httpError, StatusOK] at this

/-- C8 at a collection of two tasks when fetching the second record fails with
`connection refused`: status 200 and an array holding the first task only. -/
theorem cursor_error_gives_200_witness :
    (getTasksHandler { Env.succeeding otherID with NextErr := some (1, ⟨"connection refused"⟩) }
      twoTaskStore ⟨[], []⟩).resp
      = ⟨200, some "application/json",
          .json (.array [⟨"0102030405060708090a0b0c", "buy milk", false⟩])⟩ ∧
    (getTasksHandler { Env.succeeding otherID with NextErr := some (1, ⟨"connection refused"⟩) }
      twoTaskStore ⟨[], []⟩).resp ≠ httpError "connection refused" 500 :=
  ⟨by decide,
   (cursor_error_gives_200
      { Env.succeeding otherID with NextErr := some (1, ⟨"connection refused"⟩) }
      twoTaskStore ⟨[], []⟩ 1 ⟨"connection refused"⟩ rfl rfl (fun _ _ => rfl)).2.2⟩

/-- C9: if every stored task has a non-empty description and no two stored tasks share
an identifier before a request to any of the four operations, with any input and any
outcome of the driver calls, the same holds of the store afterwards. -/
theorem invariant_preserved (op : Op) (e : Env) (s : Store) (r : Request)
    (h : Inv s.val) : Inv (route op e s r).store.val := by
  refine ⟨?_, (route op e s r).store.property⟩
  rcases route_store op e s r with hs | ⟨_, hd, _, hs⟩ | ⟨id, _, _, hs⟩ | ⟨id, _, _, hs⟩
  · rw [hs]; exact h.1
  · rw [hs]
    intro t ht
    rcases List.mem_append.1 ht with ht | ht
    · exact h.1 t ht
    · rw [List.mem_singleton.1 ht]; exact hd
  · rw [hs]
    intro t ht
    exact h.1 t (List.mem_of_mem_eraseP ht)
  · rw [hs]
    intro t ht
    rcases mem_setCompleted ht with ht | ⟨t0, ht0, _, rfl⟩
    · exact h.1 t ht
    · exact h.1 t0 ht0

/-- C9 at a create request on a collection holding one task. -/
theorem invariant_preserved_witness :
    Inv oneTaskStore.val ∧
    (route .create (Env.succeeding otherID) oneTaskStore
      ⟨[("description", ["call home"])], []⟩).store.val
      = [⟨exampleID, "buy milk", false⟩, ⟨otherID, "call home", false⟩] ∧
    Inv (route .create (Env.succeeding otherID) oneTaskStore
      ⟨[("description", ["call home"])], []⟩).store.val :=
  ⟨⟨by decide, by decide⟩, by decide,
   invariant_preserved .create (Env.succeeding otherID) oneTaskStore
    ⟨[("description", ["call home"])], []⟩ ⟨by decide, by decide⟩⟩

/-- C10: for every store state, operation and input: a task stored before and after the
request keeps its description and stays completed if it was; a completed flag changes
only on the task whose identifier was passed to `completeTaskHandler`; a task disappears
only if its identifier was passed to `deleteTaskHandler`. Tasks are identified by their
`_id`. -/
theorem frame (op : Op) (e : Env) (s : Store) (r : Request) :
    (∀ t ∈ s.val, ∀ t' ∈ (route op e s r).store.val, t'.ID = t.ID →
      t'.Description = t.Description ∧ (t.Completed = true → t'.Completed = true)) ∧
    (∀ t ∈ s.val, ∀ t' ∈ (route op e s r).store.val, t'.ID = t.ID →
      t'.Completed ≠ t.Completed →
      op = .complete ∧ ObjectIDFromHex (r.Var "id") = .ok t.ID) ∧
    (∀ t ∈ s.val, t.ID ∉ ids (route op e s r).store.val →
      op = .delete ∧ ObjectIDFromHex (r.Var "id") = .ok t.ID) := by
  have hn := s.property
  -- a document found after the request is one from before, or its completed copy
  have key : ∀ t ∈ s.val, ∀ t' ∈ (route op e s r).store.val, t'.ID = t.ID →
      t' = t ∨ (t' = { t with Completed := true } ∧ op = .complete ∧
        ObjectIDFromHex (r.Var "id") = .ok t.ID) := by
    intro t ht t' ht' hid
    rcases route_store op e s r with hs | ⟨_, _, hfresh, hs⟩ | ⟨id, _, _, hs⟩ | ⟨id, hop, hp, hs⟩
    · rw [hs] at ht'
      exact Or.inl (eq_of_ID_eq hn ht' ht hid)
    · rw [hs] at ht'
      rcases List.mem_append.1 ht' with h | h
      · exact Or.inl (eq_of_ID_eq hn h ht hid)
      · rw [List.mem_singleton.1 h] at hid
        exact absurd (List.mem_map.2 ⟨t, ht, hid.symm⟩) hfresh
    · rw [hs] at ht'
      exact Or.inl (eq_of_ID_eq hn (List.mem_of_mem_eraseP ht') ht hid)
    · rw [hs] at ht'
      rcases mem_setCompleted ht' with h | ⟨t0, ht0, hid0, rfl⟩
      · exact Or.inl (eq_of_ID_eq hn h ht hid)
      · have : t0 = t := eq_of_ID_eq hn ht0 ht hid
        subst this
        exact Or.inr ⟨rfl, hop, hid0 ▸ hp⟩
  refine ⟨?_, ?_, ?_⟩
  · intro t ht t' ht' hid
    rcases key t ht t' ht' hid with rfl | ⟨rfl, _, _⟩
    · exact ⟨rfl, id⟩
    · exact ⟨rfl, fun _ => rfl⟩
  · intro t ht t' ht' hid hne
    rcases key t ht t' ht' hid with rfl | ⟨_, hop, hp⟩
    · exact absurd rfl hne
    · exact ⟨hop, hp⟩
  · intro t ht hgone
    rcases route_store op e s r with hs | ⟨_, _, _, hs⟩ | ⟨id, hop, hp, hs⟩ | ⟨id, _, _, hs⟩
    · rw [hs] at hgone
      exact absurd (List.mem_map_of_mem Task.ID ht) hgone
    · rw [hs] at hgone
      exact absurd (List.mem_map_of_mem Task.ID (List.mem_append_left _ ht)) hgone
    · rw [hs] at hgone
      by_cases hid : t.ID = id
      · exact ⟨hop, hid ▸ hp⟩
      · exact absurd (List.mem_map_of_mem Task.ID (mem_deleteFirst_of_ne ht hid)) hgone
    · rw [hs, ids_setCompleted] at hgone
      exact absurd (List.mem_map_of_mem Task.ID ht) hgone

/-- C10 at a complete request on a collection holding one open task: the flag of that
task changes, and the request is the complete operation on its identifier. -/
theorem frame_witness :
    (route .complete (Env.succeeding otherID) oneTaskStore
      ⟨[], [("id", "0102030405060708090a0b0c")]⟩).store.val
      = [⟨exampleID, "buy milk", true⟩] ∧
    (Op.complete = Op.complete ∧
      ObjectIDFromHex (Request.Var ⟨[], [("id", "0102030405060708090a0b0c")]⟩ "id")
        = .ok exampleID) :=
  ⟨by decide,
   (frame .complete (Env.succeeding otherID) oneTaskStore
      ⟨[], [("id", "0102030405060708090a0b0c")]⟩).2.1
    ⟨exampleID, "buy milk", false⟩ (by decide) ⟨exampleID, "buy milk", true⟩ (by decide) rfl
    (by decide)⟩

end TaskManager
